import Mathlib

/-!
Verification of the RLS-monkey interpreter/compiler against its specification.

The development shallowly embeds the Go sources:
  * the AST (`ast` package),
  * the bytecode encoding (`code/code.go`; the opcodes past `OpIndex` and the
    one-byte operand handling are used by the compiler and tested by
    `code/code_test.go` but their definitions are not in the source tree, so
    they are modelled from the specification's opcode table),
  * the runtime object model (`object` package) with an explicit heap so that
    Go pointer identity and in-place mutation are observable,
  * the tree-walking evaluator (`evaluator` package),
  * the symbol table and single-pass compiler (`compiler` package),
  * the stack virtual machine (`vm/vm.go`).

Machine integers are modelled as `Int` wrapped to 64 bits exactly where the Go
code performs `int64` arithmetic.  Operations on which the Go runtime faults
(integer division by zero, out-of-range indexing, popping an empty stack) are
modelled by `Option`, `none` standing for the fault; recursion that Go performs
on the call stack is modelled with an explicit fuel parameter, exhaustion also
yielding `none`.
-/

namespace Monkey

/-! ## AST (package ast)

Statements and expressions, as dispatched on by `Eval` and `Compile`.  A block
statement is represented by its list of statements; `IfExpression.consequence`
and `FunctionLiteral.body` hold such lists directly.
-/

mutual

inductive Expr where
  | identifier (name : String)
  | integerLiteral (value : Int)
  | booleanLiteral (value : Bool)
  | stringLiteral (value : String)
  | arrayLiteral (elements : List Expr)
  | hashLiteral (pairs : List (Expr × Expr))
  | prefixExpr (operator : String) (right : Expr)
  | infixExpr (operator : String) (left : Expr) (right : Expr)
  | ifExpr (condition : Expr) (consequence : List Stmt) (alternative : Option (List Stmt))
  | functionLiteral (parameters : List String) (body : List Stmt)
  | callExpr (function : Expr) (arguments : List Expr)
  | indexExpr (left : Expr) (index : Expr)
deriving Repr

inductive Stmt where
  | letStmt (name : String) (value : Expr)
  | returnStmt (value : Expr)
  | exprStmt (expression : Expr)
  | blockStmt (statements : List Stmt)
deriving Repr

end

/-- Nodes passed to `Eval` and `Compile` (Go dispatches on the dynamic type of
`ast.Node`; a whole program is one more node kind). -/
inductive Node where
  | program (statements : List Stmt)
  | stmt (s : Stmt)
  | expr (e : Expr)
deriving Repr

/-! ### Canonical textual form (the `String()` methods of package ast)

Nodes without their source token carry enough to reproduce the canonical form:
integer literals print their decimal value, booleans `true`/`false` (the token
literals a parsed program would carry).  Modelled from the spec: the
`HashLiteral` node's declaration and `String()` method are not under src
(only its users are); its textual form is taken as `{k1:v1, k2:v2}`.  The
compiler uses this form only to sort hash keys.
-/

mutual

def exprString : Expr → String
  | .identifier name => name
  | .integerLiteral v => toString v
  | .booleanLiteral b => cond b "true" "false"
  | .stringLiteral s => s
  | .arrayLiteral elems => "[" ++ String.intercalate ", " (exprListStrings elems) ++ "]"
  | .hashLiteral pairs => "\x7b" ++ String.intercalate ", " (pairStrings pairs) ++ "\x7d"
  | .prefixExpr op right => "(" ++ op ++ exprString right ++ ")"
  | .infixExpr op left right =>
      "(" ++ exprString left ++ " " ++ op ++ " " ++ exprString right ++ ")"
  | .ifExpr cond cons alt =>
      "if" ++ exprString cond ++ " " ++ stmtsString cons ++
        (match alt with
         | some a => " else " ++ stmtsString a
         | none => "")
  | .functionLiteral params body =>
      "fn" ++ "(" ++ String.intercalate ", " params ++ ") " ++ stmtsString body
  | .callExpr fn args =>
      exprString fn ++ "(" ++ String.intercalate ", " (exprListStrings args) ++ ")"
  | .indexExpr left index =>
      "(" ++ exprString left ++ "[" ++ exprString index ++ "]" ++ ")"

def exprListStrings : List Expr → List String
  | [] => []
  | e :: es => exprString e :: exprListStrings es

def pairStrings : List (Expr × Expr) → List String
  | [] => []
  | (k, v) :: ps => (exprString k ++ ":" ++ exprString v) :: pairStrings ps

def stmtString : Stmt → String
  | .letStmt name value => "let " ++ name ++ " = " ++ exprString value ++ ";"
  | .returnStmt value => "return " ++ exprString value ++ ";"
  | .exprStmt e => exprString e
  | .blockStmt stmts => stmtsString stmts

def stmtsString : List Stmt → String
  | [] => ""
  | s :: ss => stmtString s ++ stmtsString ss

end

/-! ## Bytecode encoding (code/code.go)

The opcodes up to `OpIndex`, their operand widths, `Make` and `ReadOperands`
are translated from src/code/code.go.  The compiler and the tests in
code/code_test.go additionally use `OpSetLocal` through `OpCurrentClosure` and
one-byte operands, whose definitions are not under src; those opcodes, their
widths and the one-byte branches of `Make`/`ReadOperands` are modelled from
the spec's opcode table (u8 and u16 big-endian operands). -/

inductive Opcode where
  | opConstant
  | opAdd
  | opPop
  | opSub
  | opMul
  | opDiv
  | opTrue
  | opFalse
  | opEqual
  | opNotEqual
  | opGreaterThan
  | opMinus
  | opBang
  | opJumpNotTruthy
  | opJump
  | opNull
  | opSetGlobal
  | opGetGlobal
  | opArray
  | opHash
  | opIndex
  | opSetLocal
  | opGetLocal
  | opGetBuiltin
  | opGetFree
  | opClosure
  | opCall
  | opReturnValue
  | opReturn
  | opCurrentClosure
deriving DecidableEq, Repr

/-- Byte value of an opcode: the `iota` order of src/code/code.go for the
first twenty-one.  Modelled from the spec: the remaining opcodes (whose
declarations are in the part of code.go not under src) get the following
byte values, in the order of the spec's opcode table. -/
def opcodeByte : Opcode → Nat
  | .opConstant => 0
  | .opAdd => 1
  | .opPop => 2
  | .opSub => 3
  | .opMul => 4
  | .opDiv => 5
  | .opTrue => 6
  | .opFalse => 7
  | .opEqual => 8
  | .opNotEqual => 9
  | .opGreaterThan => 10
  | .opMinus => 11
  | .opBang => 12
  | .opJumpNotTruthy => 13
  | .opJump => 14
  | .opNull => 15
  | .opSetGlobal => 16
  | .opGetGlobal => 17
  | .opArray => 18
  | .opHash => 19
  | .opIndex => 20
  | .opSetLocal => 21
  | .opGetLocal => 22
  | .opGetBuiltin => 23
  | .opGetFree => 24
  | .opClosure => 25
  | .opCall => 26
  | .opReturnValue => 27
  | .opReturn => 28
  | .opCurrentClosure => 29

/-- Partial inverse of `opcodeByte` (the unchecked Go cast `code.Opcode(b)`
composed with the definitions-map lookup). -/
def opcodeOfByte (b : Nat) : Option Opcode :=
  ([Opcode.opConstant, .opAdd, .opPop, .opSub, .opMul, .opDiv, .opTrue, .opFalse,
    .opEqual, .opNotEqual, .opGreaterThan, .opMinus, .opBang, .opJumpNotTruthy,
    .opJump, .opNull, .opSetGlobal, .opGetGlobal, .opArray, .opHash, .opIndex,
    .opSetLocal, .opGetLocal, .opGetBuiltin, .opGetFree, .opClosure, .opCall,
    .opReturnValue, .opReturn, .opCurrentClosure].find? (fun op => opcodeByte op = b))

structure Definition where
  name : String
  operandWidths : List Nat
deriving DecidableEq, Repr

/-- The definitions map.  Entries up to `OpIndex` are from src/code/code.go.
Modelled from the spec: the remaining entries (declared in the part of
code.go not under src), with the operand widths of the spec's opcode
table. -/
def definitions : Opcode → Definition
  | .opConstant => ⟨"OpConstant", [2]⟩
  | .opAdd => ⟨"OpAdd", []⟩
  | .opPop => ⟨"OpPop", []⟩
  | .opSub => ⟨"OpSub", []⟩
  | .opMul => ⟨"OpMul", []⟩
  | .opDiv => ⟨"OpDiv", []⟩
  | .opTrue => ⟨"OpTrue", []⟩
  | .opFalse => ⟨"OpFalse", []⟩
  | .opEqual => ⟨"OpEqual", []⟩
  | .opNotEqual => ⟨"OpNotEqual", []⟩
  | .opGreaterThan => ⟨"OpGreaterThan", []⟩
  | .opMinus => ⟨"OpMinus", []⟩
  | .opBang => ⟨"OpBang", []⟩
  | .opJumpNotTruthy => ⟨"OpJumpNotTruthy", [2]⟩
  | .opJump => ⟨"OpJump", [2]⟩
  | .opNull => ⟨"OpNull", []⟩
  | .opSetGlobal => ⟨"OpSetGlobal", [2]⟩
  | .opGetGlobal => ⟨"OpGetGlobal", [2]⟩
  | .opArray => ⟨"OpArray", [2]⟩
  | .opHash => ⟨"OpHash", [2]⟩
  | .opIndex => ⟨"OpIndex", []⟩
  | .opSetLocal => ⟨"OpSetLocal", [1]⟩
  | .opGetLocal => ⟨"OpGetLocal", [1]⟩
  | .opGetBuiltin => ⟨"OpGetBuiltin", [1]⟩
  | .opGetFree => ⟨"OpGetFree", [1]⟩
  | .opClosure => ⟨"OpClosure", [2, 1]⟩
  | .opCall => ⟨"OpCall", [1]⟩
  | .opReturnValue => ⟨"OpReturnValue", []⟩
  | .opReturn => ⟨"OpReturn", []⟩
  | .opCurrentClosure => ⟨"OpCurrentClosure", []⟩

/-- Go `Lookup`: resolve a raw byte to a definition; unknown bytes error. -/
def Lookup (b : Nat) : Option Definition :=
  (opcodeOfByte b).map definitions

/-- The bytes an operand of the given width contributes to an instruction.
Width 2 is `binary.BigEndian.PutUint16` (the `uint16` conversion truncates to
16 bits).  Modelled from the spec: the width-1 branch writing the low byte
(the one-byte case of `Make` is in the part of code.go not under src).  Any
other width leaves the preallocated zero bytes untouched, as the Go switch
has no matching case. -/
def writeOperand (width o : Nat) : List Nat :=
  match width with
  | 2 => [o % 65536 / 256, o % 256]
  | 1 => [o % 256]
  | w => List.replicate w 0

/-- Encode the operand list against the declared widths.  The instruction is
preallocated at full length, so widths without a supplied operand stay zero;
supplying more operands than widths indexes past the widths slice, a host
fault modelled as `none`. -/
def writeOperands : List Nat → List Nat → Option (List Nat)
  | ws, [] => some (ws.foldr (fun w acc => List.replicate w 0 ++ acc) [])
  | [], _ :: _ => none
  | w :: ws, o :: os => (writeOperands ws os).map (fun rest => writeOperand w o ++ rest)

/-- Go `Make`: one opcode byte followed by the encoded operands. -/
def Make (op : Opcode) (operands : List Nat) : Option (List Nat) :=
  (writeOperands (definitions op).operandWidths operands).map
    (fun bs => opcodeByte op :: bs)

/-- Decoding loop of `ReadOperands`: one operand per declared width, the
offset accumulating the widths.  Width 2 is `ReadUint16` (big-endian).
Modelled from the spec: the width-1 branch reading one byte (the one-byte
case of `ReadOperands` is in the part of code.go not under src).  Other
widths leave the preallocated zero operand and skip.  Reading past the end of
the byte slice is a host fault, modelled as `none`. -/
def readOperandsAux : List Nat → List Nat → Option (List Nat × Nat)
  | [], _ => some ([], 0)
  | 2 :: ws, b0 :: b1 :: rest =>
      (readOperandsAux ws rest).map (fun p => ((b0 * 256 + b1) :: p.1, p.2 + 2))
  | 2 :: _, _ => none
  | 1 :: ws, b0 :: rest =>
      (readOperandsAux ws rest).map (fun p => (b0 :: p.1, p.2 + 1))
  | 1 :: _, _ => none
  | w :: ws, ins =>
      (readOperandsAux ws (ins.drop w)).map (fun p => (0 :: p.1, p.2 + w))

/-- Go `ReadOperands`. -/
def ReadOperands (d : Definition) (ins : List Nat) : Option (List Nat × Nat) :=
  readOperandsAux d.operandWidths ins

/-! ## Runtime objects (package object)

Every Monkey value is a Go pointer (`*object.Integer`, `*object.Array`, ...).
Pointer identity and in-place mutation are observable only for some kinds, so
the embedding gives those an explicit identity:

  * arrays carry a reference into an `arrays` heap (their `Elements` slice is
    mutated in place by the evaluator's `push`/`put` builtins);
  * strings, hashes, functions and fresh `&object.Null{}` allocations carry an
    allocation id drawn from a per-process counter, modelling `==` on the
    interface values (two distinct allocations compare unequal);
  * booleans are only ever the canonical `True`/`False` package singletons, so
    the wrapped `Bool` is their identity; `nullV` is the canonical `Null`.

Integers never reach an identity comparison (both dispatchers handle a pair of
integers by value first, and an integer compared against any other kind
differs in dynamic type), so they carry no id.

`goNil` is the nil `object.Object` interface value: `Eval` returns it for a
`let` statement (the switch case falls through to `return nil`) and for an
empty block, and it can flow into expressions such as `!if (true) { }`.
Calling `Type()` on it faults, which `typeOf?` models as `none`. -/

structure HashKey where
  type : String
  value : Nat
deriving DecidableEq, Repr

mutual

inductive Obj where
  | intV (value : Int)
  | boolV (value : Bool)
  | nullV
  | nullA (id : Nat)
  | strV (id : Nat) (value : String)
  | arrV (ref : Nat)
  | hashV (id : Nat) (pairs : List (HashKey × ObjPair))
  | funcV (id : Nat) (parameters : List String) (body : List Stmt) (env : Nat)
  | builtinV (name : String)
  | returnV (value : Obj)
  | errV (message : String)
  | compiledFnV (instructions : List Nat) (numLocals : Nat) (numParameters : Nat)
  | closureV (id : Nat) (fn : Obj) (free : List Obj)
  | goNil
deriving Repr

/-- An `object.HashPair` (the original key object and the value object). -/
inductive ObjPair where
  | mk (key : Obj) (value : Obj)
deriving Repr

end

/-- The `Type()` tag of each object kind (the constants of object/object.go). -/
def typeOf : Obj → String
  | .intV _ => "INTEGER"
  | .boolV _ => "BOOLEAN"
  | .nullV => "NULL"
  | .nullA _ => "NULL"
  | .strV _ _ => "STRING"
  | .arrV _ => "ARRAY"
  | .hashV _ _ => "HASH"
  | .funcV _ _ _ _ => "FUNCTION"
  | .builtinV _ => "BUILTIN"
  | .returnV _ => "RETURN_VALUE"
  | .errV _ => "ERROR"
  | .compiledFnV _ _ _ => "COMPILED_FUNCTION"
  | .closureV _ _ _ => "CLOSURE"
  | .goNil => ""

/-- The `Type()` call as the sources actually perform it: on the nil
interface value it faults (`none`); every code path below calls this at
exactly the places the Go code calls `.Type()` on a possibly-nil value. -/
def typeOf? : Obj → Option String
  | .goNil => none
  | o => some (typeOf o)

/-- Go `==` on two `object.Object` interface values: equal dynamic type and
equal pointer.  Identity-bearing kinds compare their allocation identity;
booleans are the canonical singletons.  A fresh `&object.Null{}` is treated as
a distinct allocation from the canonical `Null` (Go leaves the address
equality of zero-size allocations unspecified; no proved theorem depends on
this case).  Integer/integer and string/string pairs never reach the identity
branch of either dispatcher; integers carry no id, and the `false` returned
for them here is never observable.  `RETURN_VALUE` and `ERROR` objects are
short-circuited before any comparison. -/
def goEq : Obj → Obj → Bool
  | .boolV a, .boolV b => a == b
  | .nullV, .nullV => true
  | .nullA i, .nullA j => i == j
  | .strV i _, .strV j _ => i == j
  | .arrV i, .arrV j => i == j
  | .hashV i _, .hashV j _ => i == j
  | .funcV i _ _ _, .funcV j _ _ _ => i == j
  | .builtinV a, .builtinV b => a == b
  | .goNil, .goNil => true
  | _, _ => false

/-- Wrap an unbounded integer to the two's-complement `int64` range, the
behaviour of every Go `int64` arithmetic operation. -/
def wrap64 (x : Int) : Int :=
  (x + 2 ^ 63) % 2 ^ 64 - 2 ^ 63

/-- Go `int64` division: truncation toward zero, wrapping on the single
overflow case `MinInt64 / -1`.  A zero divisor makes the Go run time fault;
the sources apply the operator unguarded, so the fault is modelled as `none`. -/
def goDiv (a b : Int) : Option Int :=
  if b = 0 then none else some (wrap64 (Int.tdiv a b))

/-- FNV-1a 64-bit over the UTF-8 bytes of a string (hash/fnv), used by
`(*object.String).HashKey`. -/
def fnv1a64 (s : String) : Nat :=
  s.toUTF8.toList.foldl
    (fun h b => (Nat.xor h b.toNat) * 0x100000001b3 % 2 ^ 64)
    0xcbf29ce484222325

/-- The `Hashable` interface: integers, booleans and strings yield a
`HashKey`; every other kind is not hashable. -/
def hashKeyOf : Obj → Option HashKey
  | .intV n => some ⟨"INTEGER", ((n % 2 ^ 64).toNat)⟩
  | .boolV b => some ⟨"BOOLEAN", cond b 1 0⟩
  | .strV _ s => some ⟨"STRING", fnv1a64 s⟩
  | _ => none

/-! ## Association-list helpers

Go maps keyed by strings are modelled as association lists whose `set`
replaces an existing binding, so keys stay unique and lookup order is
immaterial. -/

def assocFind (l : List (String × α)) (k : String) : Option α :=
  (l.find? (fun p => p.1 = k)).map Prod.snd

def assocSet (l : List (String × α)) (k : String) (v : α) : List (String × α) :=
  match l with
  | [] => [(k, v)]
  | (k', v') :: rest =>
      if k' = k then (k, v) :: rest else (k', v') :: assocSet rest k v

/-- Functional update of a list cell (Go slice assignment `l[i] = v`). -/
def listSet (l : List α) (i : Nat) (v : α) : List α :=
  l.set i v

/-! ## Symbol table (compiler/symbol_table.go) -/

inductive SymbolScope where
  | globalScope
  | localScope
  | builtinScope
  | freeScope
  | functionScope
deriving DecidableEq, Repr

structure Symbol where
  name : String
  scope : SymbolScope
  index : Nat
deriving DecidableEq, Repr

/-- A symbol table frame.  Go links frames by an `Outer` pointer and mutates
them in place; the embedding nests the outer frame structurally and every
operation returns the updated table. -/
inductive SymbolTable where
  | mk (store : List (String × Symbol)) (numDefinitions : Nat)
       (freeSymbols : List Symbol) (outer : Option SymbolTable)
deriving Repr

def SymbolTable.store : SymbolTable → List (String × Symbol)
  | .mk s _ _ _ => s

def SymbolTable.numDefinitions : SymbolTable → Nat
  | .mk _ n _ _ => n

def SymbolTable.freeSymbols : SymbolTable → List Symbol
  | .mk _ _ f _ => f

def SymbolTable.outer : SymbolTable → Option SymbolTable
  | .mk _ _ _ o => o

def NewSymbolTable : SymbolTable := .mk [] 0 [] none

def NewEnclosedSymbolTable (outer : SymbolTable) : SymbolTable :=
  .mk [] 0 [] (some outer)

/-- Go `Define`: fresh index from `numDefinitions`; global scope exactly in
the outermost frame. -/
def SymbolTable.define : SymbolTable → String → SymbolTable × Symbol
  | .mk store n free outer, name =>
      let sym : Symbol :=
        ⟨name, (match outer with | none => .globalScope | some _ => .localScope), n⟩
      (.mk (assocSet store name sym) (n + 1) free outer, sym)

/-- Go `DefineBuiltin`: caller-chosen index, builtin scope, no counter
change. -/
def SymbolTable.defineBuiltin : SymbolTable → Nat → String → SymbolTable × Symbol
  | .mk store n free outer, index, name =>
      let sym : Symbol := ⟨name, .builtinScope, index⟩
      (.mk (assocSet store name sym) n free outer, sym)

/-- Go `DefineFunctionName`: function scope, zero index (the Go struct's zero
value), no counter change. -/
def SymbolTable.defineFunctionName : SymbolTable → String → SymbolTable × Symbol
  | .mk store n free outer, name =>
      let sym : Symbol := ⟨name, .functionScope, 0⟩
      (.mk (assocSet store name sym) n free outer, sym)

/-- Go `DefineFree`: append the original symbol to `FreeSymbols` and install a
`FREE` symbol whose index is its position there. -/
def SymbolTable.defineFree : SymbolTable → Symbol → SymbolTable × Symbol
  | .mk store n free outer, original =>
      let sym : Symbol := ⟨original.name, .freeScope, free.length⟩
      (.mk (assocSet store original.name sym) n (free ++ [original]) outer, sym)

/-- Go `Resolve`: local lookup first; otherwise resolve in the outer frame
(whose promotions persist, hence the rebuilt `outer` field) and promote the
result through `DefineFree` unless its scope is `GLOBAL` or `BUILTIN`. -/
def SymbolTable.resolve : SymbolTable → String → SymbolTable × Option Symbol
  | .mk store n free none, name =>
      (.mk store n free none, assocFind store name)
  | .mk store n free (some o), name =>
      match assocFind store name with
      | some sym => (.mk store n free (some o), some sym)
      | none =>
          match o.resolve name with
          | (o', none) => (.mk store n free (some o'), none)
          | (o', some sym) =>
              if sym.scope ≠ .globalScope ∧ sym.scope ≠ .builtinScope then
                let p := SymbolTable.defineFree (.mk store n free (some o')) sym
                (p.1, some p.2)
              else
                (.mk store n free (some o'), some sym)

/-! ## Tree-walking evaluator (package evaluator)

State: the arrays heap (an `*object.Array`'s `Elements` slice, mutated in
place by `put`/`push`), the environment heap (`*object.Environment` frames are
shared mutable structures: a closure captures a frame by reference and later
`Set`s on that frame are visible through it), and the allocation counter.
`Eval`'s recursion runs on the Go call stack, modelled by fuel; `none` is
fuel exhaustion or a host fault. -/

structure Frame where
  store : List (String × Obj)
  outer : Option Nat
deriving Repr

structure EvalSt where
  arrays : List (List Obj)
  envs : List Frame
  nextId : Nat
deriving Repr

/-- The evaluator's initial state with the single environment of
`object.NewEnvironment()`. -/
def initialEvalSt : EvalSt := ⟨[], [⟨[], none⟩], 0⟩

def allocId (st : EvalSt) : EvalSt × Nat :=
  ({ st with nextId := st.nextId + 1 }, st.nextId)

def allocArray (st : EvalSt) (elems : List Obj) : EvalSt × Nat :=
  ({ st with arrays := st.arrays ++ [elems] }, st.arrays.length)

def allocEnv (st : EvalSt) (fr : Frame) : EvalSt × Nat :=
  ({ st with envs := st.envs ++ [fr] }, st.envs.length)

/-- A fresh `&object.Null{}` allocation. -/
def freshNull (st : EvalSt) : EvalSt × Obj :=
  let p := allocId st
  (p.1, .nullA p.2)

/-- Go `Environment.Get`: look in the frame, then walk outward.  Outer
references always point to earlier-allocated frames, so the chain is shorter
than the heap; the fuel only bounds that walk. -/
def envGetAux : Nat → EvalSt → Nat → String → Option Obj
  | 0, _, _, _ => none
  | fuel + 1, st, ref, name =>
      match st.envs.get? ref with
      | none => none
      | some fr =>
          match assocFind fr.store name with
          | some v => some v
          | none =>
              match fr.outer with
              | none => none
              | some o => envGetAux fuel st o name

def envGet (st : EvalSt) (ref : Nat) (name : String) : Option Obj :=
  envGetAux (st.envs.length + 1) st ref name

/-- Go `Environment.Set`: always writes into the designated frame.  The
reference is always valid for frames produced by the evaluator, so the
out-of-range branch is unreachable. -/
def envSet (st : EvalSt) (ref : Nat) (name : String) (v : Obj) : EvalSt :=
  match st.envs.get? ref with
  | none => st
  | some fr => { st with envs := listSet st.envs ref ⟨assocSet fr.store name v, fr.outer⟩ }

/-- Go `isError`: nil is not an error; otherwise compare the type tag. -/
def isError : Obj → Bool
  | .errV _ => true
  | _ => false

/-- The evaluator's `isTruthy`: identity comparisons against the canonical
singletons.  A fresh `&object.Null{}` (and the nil interface) is none of them
and therefore falls through to `true`. -/
def evalIsTruthy : Obj → Bool
  | .nullV => false
  | .boolV b => b
  | _ => true

/-- Go `evalBangOperatorExpression`: identity switch on the singletons; any
other value (fresh nulls included) hits the default. -/
def evalBang : Obj → Obj
  | .boolV true => .boolV false
  | .boolV false => .boolV true
  | .nullV => .boolV true
  | _ => .boolV false

/-- Go `unwrapReturnValue`. -/
def unwrapReturnValue : Obj → Obj
  | .returnV v => v
  | o => o

/-- Go `evalIntegerInfixExpression` on the two `int64` payloads. -/
def evalIntegerInfixExpression (op : String) (a b : Int) : Option Obj :=
  match op with
  | "+" => some (.intV (wrap64 (a + b)))
  | "-" => some (.intV (wrap64 (a - b)))
  | "*" => some (.intV (wrap64 (a * b)))
  | "/" => (goDiv a b).map Obj.intV
  | "<" => some (.boolV (a < b))
  | ">" => some (.boolV (b < a))
  | "==" => some (.boolV (a = b))
  | "!=" => some (.boolV (a ≠ b))
  | _ => some (.errV ("unsupported operator: INTEGER " ++ op ++ " INTEGER"))

/-- Go `evalStringInfixExpression`: only `+` (allocating the concatenation);
everything else is the unsupported-operator error. -/
def evalStringInfixExpression (op : String) (a b : String) (st : EvalSt) :
    EvalSt × Obj :=
  match op with
  | "+" =>
      let p := allocId st
      (p.1, .strV p.2 (a ++ b))
  | _ => (st, .errV ("unsupported operator: STRING " ++ op ++ " STRING"))

/-- Go `evalInfixExpression`.  The source dispatches on `Type()` tags and the
type assertions that follow a positive tag test always succeed, so the first
two branches match on the constructors directly; the remaining branches call
`Type()` on both operands, faulting on nil. -/
def evalInfixExpression (op : String) (l r : Obj) (st : EvalSt) :
    Option (EvalSt × Obj) :=
  match l, r with
  | .intV a, .intV b => (evalIntegerInfixExpression op a b).map (fun o => (st, o))
  | .strV _ a, .strV _ b => some (evalStringInfixExpression op a b st)
  | _, _ =>
      match typeOf? l, typeOf? r with
      | some lt, some rt =>
          if op = "==" then some (st, .boolV (goEq l r))
          else if op = "!=" then some (st, .boolV (!goEq l r))
          else if lt ≠ rt then
            some (st, .errV ("type mismatch: " ++ lt ++ " " ++ op ++ " " ++ rt))
          else
            some (st, .errV ("unsupported operator: " ++ lt ++ " " ++ op ++ " " ++ rt))
      | _, _ => none

/-- Go `evalPrefixExpression` (with `evalMinusPrefixOperatorExpression`
inlined for `-`): error messages stringify the operand's type, faulting on
nil. -/
def evalPrefixExpression (op : String) (r : Obj) (st : EvalSt) :
    Option (EvalSt × Obj) :=
  match op with
  | "!" => some (st, evalBang r)
  | "-" =>
      match r with
      | .intV v => some (st, .intV (wrap64 (-v)))
      | _ => (typeOf? r).map (fun t => (st, .errV ("unsupported operator: -" ++ t)))
  | _ => (typeOf? r).map (fun t => (st, .errV ("unsupported operator: " ++ op ++ t)))

/-- Lookup in an `object.Hash`'s pair map. -/
def hashFind (pairs : List (HashKey × ObjPair)) (k : HashKey) : Option ObjPair :=
  (pairs.find? (fun p => p.1 = k)).map Prod.snd

/-- Map write with Go map semantics: replace the binding if the key exists. -/
def hashInsert (pairs : List (HashKey × ObjPair)) (k : HashKey) (v : ObjPair) :
    List (HashKey × ObjPair) :=
  match pairs with
  | [] => [(k, v)]
  | (k', v') :: rest =>
      if k' = k then (k, v) :: rest else (k', v') :: hashInsert rest k v

/-- Go `evalIndexExpression` with its two helpers.  The switch guard
evaluates `left.Type()` first (faulting on nil) and short-circuits `&&`, so
`index.Type()` is only consulted when the left operand is an array. -/
def evalIndexExpression (l i : Obj) (st : EvalSt) : Option (EvalSt × Obj) :=
  match l with
  | .arrV ref =>
      match i with
      | .intV v =>
          match st.arrays.get? ref with
          | none => none
          | some elems =>
              if v < 0 ∨ (elems.length : Int) ≤ v then some (st, .nullV)
              else
                match elems.get? v.toNat with
                | some x => some (st, x)
                | none => none
      | idx => (typeOf? idx).map (fun _ => (st, .errV "index operator not supported"))
  | .hashV _ pairs =>
      match hashKeyOf i with
      | some hk =>
          match hashFind pairs hk with
          | some (.mk _ v) => some (st, v)
          | none => some (st, .nullV)
      | none =>
          (typeOf? i).map (fun t => (st, .errV ("unusable as hash key: " ++ t)))
  | _ => (typeOf? l).map (fun _ => (st, .errV "index operator not supported"))

/-- The names in the evaluator's `builtins` map (evaluator/builtins.go: note
`put`, an in-place array mutator, and a `push` that also mutates). -/
def evalBuiltinNames : List String := ["len", "put", "first", "last", "rest", "push"]

/-- The builtin functions of evaluator/builtins.go.  Argument type errors
stringify the argument's type (faulting on a nil argument); `first`, `last`,
`rest` and `put` return a freshly allocated `&object.Null{}` where the source
writes one; `put` and `push` assign `arg.Elements = append(arg.Elements, v)`,
mutating the argument array in place, and `push` returns that same array. -/
def evalBuiltinFn (name : String) (args : List Obj) (st : EvalSt) :
    Option (EvalSt × Obj) :=
  match name with
  | "len" =>
      match args with
      | [a] =>
          match a with
          | .strV _ s => some (st, .intV (s.utf8ByteSize : Int))
          | .arrV ref =>
              match st.arrays.get? ref with
              | some elems => some (st, .intV (elems.length : Int))
              | none => none
          | _ =>
              (typeOf? a).map
                (fun t => (st, .errV ("argument to `len` not supported. got=" ++ t)))
      | _ =>
          some (st, .errV ("wrong number of arguments. got=" ++
            toString args.length ++ ", want=1"))
  | "put" =>
      match args with
      | [a, v] =>
          match a with
          | .arrV ref =>
              match st.arrays.get? ref with
              | some elems =>
                  let st' := { st with arrays := listSet st.arrays ref (elems ++ [v]) }
                  some (freshNull st')
              | none => none
          | _ =>
              (typeOf? a).map
                (fun t => (st, .errV ("argument to `put` must be Array, got " ++ t)))
      | _ =>
          some (st, .errV ("wrong number of arguments. got=" ++
            toString args.length ++ ", want=2"))
  | "first" =>
      match args with
      | [a] =>
          match a with
          | .arrV ref =>
              match st.arrays.get? ref with
              | some elems =>
                  match elems.head? with
                  | some x => some (st, x)
                  | none => some (freshNull st)
              | none => none
          | _ =>
              (typeOf? a).map
                (fun t => (st, .errV ("argument to `first` must be Array, got " ++ t)))
      | _ =>
          some (st, .errV ("wrong number of arguments. got=" ++
            toString args.length ++ ", want=1"))
  | "last" =>
      match args with
      | [a] =>
          match a with
          | .arrV ref =>
              match st.arrays.get? ref with
              | some elems =>
                  match elems.getLast? with
                  | some x => some (st, x)
                  | none => some (freshNull st)
              | none => none
          | _ =>
              (typeOf? a).map
                (fun t => (st, .errV ("argument to `last` must be Array, got " ++ t)))
      | _ =>
          some (st, .errV ("wrong number of arguments. got=" ++
            toString args.length ++ ", want=1"))
  | "rest" =>
      match args with
      | [a] =>
          match a with
          | .arrV ref =>
              match st.arrays.get? ref with
              | some elems =>
                  if elems.length > 0 then
                    let p := allocArray st (elems.drop 1)
                    some (p.1, .arrV p.2)
                  else some (freshNull st)
              | none => none
          | _ =>
              (typeOf? a).map
                (fun t => (st, .errV ("argument to `rest` must be Array, got " ++ t)))
      | _ =>
          some (st, .errV ("wrong number of arguments. got=" ++
            toString args.length ++ ", want=1"))
  | "push" =>
      match args with
      | [a, v] =>
          match a with
          | .arrV ref =>
              match st.arrays.get? ref with
              | some elems =>
                  let st' := { st with arrays := listSet st.arrays ref (elems ++ [v]) }
                  some (st', .arrV ref)
              | none => none
          | _ =>
              (typeOf? a).map
                (fun t => (st, .errV ("argument to `push` must be Array, got " ++ t)))
      | _ =>
          some (st, .errV ("wrong number of arguments. got=" ++
            toString args.length ++ ", want=2"))
  | _ => none

/-- Go `evalIdentifier`: environment first, then the builtins map, then the
identifier-not-found error. -/
def evalIdentifier (st : EvalSt) (env : Nat) (name : String) : Obj :=
  match envGet st env name with
  | some v => v
  | none =>
      if evalBuiltinNames.contains name then .builtinV name
      else .errV ("identifier not found: " ++ name)

mutual

/-- Go `Eval`.  Every recursive call spends one unit of fuel (the Go call
stack); `none` is fuel exhaustion or a host fault. -/
def evalE (fuel : Nat) (node : Node) (env : Nat) (st : EvalSt) :
    Option (EvalSt × Obj) :=
  match fuel with
  | 0 => none
  | n + 1 =>
      match node with
      | .program stmts => evalProgramE n stmts env st
      | .stmt (.exprStmt e) => evalE n (.expr e) env st
      | .stmt (.blockStmt stmts) => evalBlockE n stmts env st
      | .stmt (.returnStmt e) =>
          match evalE n (.expr e) env st with
          | none => none
          | some (st', v) =>
              if isError v then some (st', v) else some (st', .returnV v)
      | .stmt (.letStmt name e) =>
          match evalE n (.expr e) env st with
          | none => none
          | some (st', v) =>
              if isError v then some (st', v)
              else some (envSet st' env name v, .goNil)
      | .expr (.integerLiteral v) => some (st, .intV v)
      | .expr (.booleanLiteral b) => some (st, .boolV b)
      | .expr (.stringLiteral s) =>
          let p := allocId st
          some (p.1, .strV p.2 s)
      | .expr (.identifier name) => some (st, evalIdentifier st env name)
      | .expr (.prefixExpr op right) =>
          match evalE n (.expr right) env st with
          | none => none
          | some (st', r) =>
              if isError r then some (st', r) else evalPrefixExpression op r st'
      | .expr (.infixExpr op left right) =>
          match evalE n (.expr left) env st with
          | none => none
          | some (st', l) =>
              if isError l then some (st', l)
              else
                match evalE n (.expr right) env st' with
                | none => none
                | some (st'', r) =>
                    if isError r then some (st'', r)
                    else evalInfixExpression op l r st''
      | .expr (.ifExpr c cons alt) =>
          match evalE n (.expr c) env st with
          | none => none
          | some (st', cv) =>
              if isError cv then some (st', cv)
              else if evalIsTruthy cv then evalE n (.stmt (.blockStmt cons)) env st'
              else
                match alt with
                | some a => evalE n (.stmt (.blockStmt a)) env st'
                | none => some (st', .nullV)
      | .expr (.functionLiteral ps body) =>
          let p := allocId st
          some (p.1, .funcV p.2 ps body env)
      | .expr (.callExpr f args) =>
          match evalE n (.expr f) env st with
          | none => none
          | some (st', fv) =>
              if isError fv then some (st', fv)
              else
                match evalExpressionsE n args env st' [] with
                | none => none
                | some (st'', argvs) =>
                    match argvs with
                    | [a] =>
                        if isError a then some (st'', a)
                        else applyFunctionE n fv [a] st''
                    | _ => applyFunctionE n fv argvs st''
      | .expr (.arrayLiteral elems) =>
          match evalExpressionsE n elems env st [] with
          | none => none
          | some (st', vs) =>
              match vs with
              | [v] =>
                  if isError v then some (st', v)
                  else
                    let p := allocArray st' [v]
                    some (p.1, .arrV p.2)
              | _ =>
                  let p := allocArray st' vs
                  some (p.1, .arrV p.2)
      | .expr (.indexExpr l i) =>
          match evalE n (.expr l) env st with
          | none => none
          | some (st', lv) =>
              if isError lv then some (st', lv)
              else
                match evalE n (.expr i) env st' with
                | none => none
                | some (st'', iv) =>
                    if isError iv then some (st'', iv)
                    else evalIndexExpression lv iv st''
      | .expr (.hashLiteral pairs) => evalHashPairsE n pairs env st []
termination_by structural fuel

/-- The statement loop of Go `evalProgram`: a `ReturnValue` is unwrapped and
returned, an `Error` returned as is; otherwise the last result stands. -/
def evalProgramE (fuel : Nat) (stmts : List Stmt) (env : Nat) (st : EvalSt) :
    Option (EvalSt × Obj) :=
  match fuel with
  | 0 => none
  | n + 1 =>
      match stmts with
      | [] => some (st, .goNil)
      | s :: ss =>
          match evalE n (.stmt s) env st with
          | none => none
          | some (st', r) =>
              match r with
              | .returnV v => some (st', v)
              | .errV m => some (st', .errV m)
              | _ => if ss.isEmpty then some (st', r) else evalProgramE n ss env st'
termination_by structural fuel

/-- The statement loop of Go `evalBlockStatement`: a `ReturnValue` propagates
unopened. -/
def evalBlockE (fuel : Nat) (stmts : List Stmt) (env : Nat) (st : EvalSt) :
    Option (EvalSt × Obj) :=
  match fuel with
  | 0 => none
  | n + 1 =>
      match stmts with
      | [] => some (st, .goNil)
      | s :: ss =>
          match evalE n (.stmt s) env st with
          | none => none
          | some (st', r) =>
              match r with
              | .returnV v => some (st', .returnV v)
              | .errV m => some (st', .errV m)
              | _ => if ss.isEmpty then some (st', r) else evalBlockE n ss env st'
termination_by structural fuel

/-- Go `evalExpressions`: left-to-right with accumulation; the first error
makes the whole function return just that error as a singleton list. -/
def evalExpressionsE (fuel : Nat) (es : List Expr) (env : Nat) (st : EvalSt)
    (acc : List Obj) : Option (EvalSt × List Obj) :=
  match fuel with
  | 0 => none
  | n + 1 =>
      match es with
      | [] => some (st, acc)
      | e :: rest =>
          match evalE n (.expr e) env st with
          | none => none
          | some (st', v) =>
              if isError v then some (st', [v])
              else evalExpressionsE n rest env st' (acc ++ [v])
termination_by structural fuel

/-- Go `applyFunction`: user functions get an enclosed environment with the
parameters bound positionally (`args[paramIdx]` faults when a call supplies
fewer arguments than parameters — the evaluator has no arity check), then the
body is evaluated and an outer `ReturnValue` unwrapped; builtins are invoked
directly; anything else is the not-a-function error. -/
def applyFunctionE (fuel : Nat) (fn : Obj) (args : List Obj) (st : EvalSt) :
    Option (EvalSt × Obj) :=
  match fuel with
  | 0 => none
  | n + 1 =>
      match fn with
      | .funcV _ params body fenv =>
          if args.length < params.length then none
          else
            let store := (params.zip args).foldl (fun s p => assocSet s p.1 p.2) []
            let pr := allocEnv st ⟨store, some fenv⟩
            match evalE n (.stmt (.blockStmt body)) pr.2 pr.1 with
            | none => none
            | some (st', r) => some (st', unwrapReturnValue r)
      | .builtinV bname => evalBuiltinFn bname args st
      | _ => some (st, .errV "not a function")
termination_by structural fuel

/-- Go `evalHashLiteral`: evaluate key and value pairwise, reject unhashable
keys, last write wins.  The Go map iteration order is unspecified; the pairs
are walked in the literal's order. -/
def evalHashPairsE (fuel : Nat) (pairs : List (Expr × Expr)) (env : Nat)
    (st : EvalSt) (acc : List (HashKey × ObjPair)) : Option (EvalSt × Obj) :=
  match fuel with
  | 0 => none
  | n + 1 =>
      match pairs with
      | [] =>
          let p := allocId st
          some (p.1, .hashV p.2 acc)
      | (ke, ve) :: rest =>
          match evalE n (.expr ke) env st with
          | none => none
          | some (st', kv) =>
              if isError kv then some (st', kv)
              else
                match hashKeyOf kv with
                | none => some (st', .errV "unusable as hash key")
                | some hk =>
                    match evalE n (.expr ve) env st' with
                    | none => none
                    | some (st'', vv) =>
                        if isError vv then some (st'', vv)
                        else
                          evalHashPairsE n rest env st''
                            (hashInsert acc hk (.mk kv vv))
termination_by structural fuel

end

/-- Run a whole program the way the tests do: fresh environment, `Eval` on the
`Program` node, yielding the final state and result object. -/
def runEval (fuel : Nat) (stmts : List Stmt) : Option (EvalSt × Obj) :=
  evalE fuel (.program stmts) 0 initialEvalSt

/-- Just the result object of `runEval`. -/
def runEvalResult (fuel : Nat) (stmts : List Stmt) : Option Obj :=
  (runEval fuel stmts).map Prod.snd

/-! ## The object-package builtin set (object/builtins.go)

The VM-facing builtins.  `push` and `rest` build a new `&object.Array`
(allocated on the same heap model, leaving the argument array untouched);
`puts`, and `first`/`last`/`rest` on an empty array, return the nil Go
sentinel, here `goNil`.  The registration table ends with a seventh entry
whose name is the empty string. -/

def objectBuiltinNames : List String :=
  ["len", "puts", "first", "last", "rest", "push", ""]

def objectBuiltinFn (name : String) (args : List Obj) (st : EvalSt) :
    Option (EvalSt × Obj) :=
  match name with
  | "len" =>
      match args with
      | [a] =>
          match a with
          | .arrV ref =>
              match st.arrays.get? ref with
              | some elems => some (st, .intV (elems.length : Int))
              | none => none
          | .strV _ s => some (st, .intV (s.utf8ByteSize : Int))
          | _ =>
              (typeOf? a).map
                (fun t => (st, .errV ("argument to `len` not supported, got " ++ t)))
      | _ =>
          some (st, .errV ("wrong number of arguments. got=" ++
            toString args.length ++ ", want=1"))
  | "puts" => some (st, .goNil)
  | "first" =>
      match args with
      | [a] =>
          match a with
          | .arrV ref =>
              match st.arrays.get? ref with
              | some elems =>
                  match elems.head? with
                  | some x => some (st, x)
                  | none => some (st, .goNil)
              | none => none
          | _ =>
              (typeOf? a).map
                (fun t => (st, .errV ("argument to `first` must be Array, got " ++ t)))
      | _ =>
          some (st, .errV ("wrong number of arguments. got=" ++
            toString args.length ++ ", want=1"))
  | "last" =>
      match args with
      | [a] =>
          match a with
          | .arrV ref =>
              match st.arrays.get? ref with
              | some elems =>
                  match elems.getLast? with
                  | some x => some (st, x)
                  | none => some (st, .goNil)
              | none => none
          | _ =>
              (typeOf? a).map
                (fun t => (st, .errV ("argument to `last` must be Array, got " ++ t)))
      | _ =>
          some (st, .errV ("wrong number of arguments. got=" ++
            toString args.length ++ ", want=1"))
  | "rest" =>
      match args with
      | [a] =>
          match a with
          | .arrV ref =>
              match st.arrays.get? ref with
              | some elems =>
                  if elems.length > 0 then
                    let p := allocArray st (elems.drop 1)
                    some (p.1, .arrV p.2)
                  else some (st, .goNil)
              | none => none
          | _ =>
              (typeOf? a).map
                (fun t => (st, .errV ("argument to `rest` must be Array, got " ++ t)))
      | _ =>
          some (st, .errV ("wrong number of arguments. got=" ++
            toString args.length ++ ", want=1"))
  | "push" =>
      match args with
      | [a, v] =>
          match a with
          | .arrV ref =>
              match st.arrays.get? ref with
              | some elems =>
                  let p := allocArray st (elems ++ [v])
                  some (p.1, .arrV p.2)
              | none => none
          | _ =>
              (typeOf? a).map
                (fun t => (st, .errV ("argument to `push` must be Array, got " ++ t)))
      | _ =>
          some (st, .errV ("wrong number of arguments. got=" ++
            toString args.length ++ ", want=2"))
  | _ => none

/-! ## Compiler (the compiler package's compiler.go, the full version with
compilation scopes)

The compiler state carries the constant pool, the current symbol table, the
scope stack (current scope at the head) and the allocation counter used when
it builds constant objects. -/

structure EmittedInstruction where
  opCode : Opcode
  position : Nat
deriving DecidableEq, Repr

/-- The zero `EmittedInstruction` (Go's zero value: opcode byte 0, position
0). -/
def zeroEmitted : EmittedInstruction := ⟨.opConstant, 0⟩

structure CompilationScope where
  instructions : List Nat
  lastInstruction : EmittedInstruction
  previousInstruction : EmittedInstruction
deriving Repr

def emptyScope : CompilationScope := ⟨[], zeroEmitted, zeroEmitted⟩

structure CState where
  constants : List Obj
  symbolTable : SymbolTable
  scopes : List CompilationScope
  nextId : Nat
deriving Repr

/-- Go `compiler.New()`: one empty main scope and a symbol table preloaded
with the `object.Builtins` names at their registration indices (including the
trailing empty-name entry). -/
def compilerNew : CState :=
  let tbl :=
    (objectBuiltinNames.foldl
      (fun (acc : SymbolTable × Nat) bname =>
        ((acc.1.defineBuiltin acc.2 bname).1, acc.2 + 1))
      (NewSymbolTable, 0)).1
  ⟨[], tbl, [emptyScope], 0⟩

def currentScope (st : CState) : CompilationScope :=
  st.scopes.headD emptyScope

def currentInstructions (st : CState) : List Nat :=
  (currentScope st).instructions

/-- Rewrite the current scope (there is always one; the empty-stack branch is
unreachable). -/
def modifyScope (st : CState) (f : CompilationScope → CompilationScope) : CState :=
  match st.scopes with
  | [] => st
  | sc :: rest => { st with scopes := f sc :: rest }

def addConstant (st : CState) (o : Obj) : CState × Nat :=
  ({ st with constants := st.constants ++ [o] }, st.constants.length)

def allocCId (st : CState) : CState × Nat :=
  ({ st with nextId := st.nextId + 1 }, st.nextId)

def addInstruction (st : CState) (ins : List Nat) : CState × Nat :=
  let pos := (currentInstructions st).length
  (modifyScope st (fun sc => { sc with instructions := sc.instructions ++ ins }), pos)

def setLastInstruction (st : CState) (op : Opcode) (pos : Nat) : CState :=
  modifyScope st (fun sc =>
    { sc with previousInstruction := sc.lastInstruction, lastInstruction := ⟨op, pos⟩ })

/-- Go `emit`.  `Make` only fails when more operands are supplied than the
opcode declares; every call in this compiler matches the declared widths, so
the default is unreachable. -/
def emit (st : CState) (op : Opcode) (operands : List Nat) : CState × Nat :=
  let ins := (Make op operands).getD []
  let p := addInstruction st ins
  (setLastInstruction p.1 op p.2, p.2)

def lastInstructionIs (st : CState) (op : Opcode) : Bool :=
  if (currentInstructions st).length = 0 then false
  else (currentScope st).lastInstruction.opCode = op

/-- Go `removeLastPop`: truncate at the last instruction's position. -/
def removeLastPop (st : CState) : CState :=
  modifyScope st (fun sc =>
    { sc with
      instructions := sc.instructions.take sc.lastInstruction.position,
      lastInstruction := sc.previousInstruction })

/-- Byte-wise overwrite starting at `pos` (Go `replaceInstruction`'s loop).
Writing past the end would fault; every call site rewrites an instruction of
identical width in place. -/
def overwriteAt : List Nat → Nat → List Nat → List Nat
  | l, _, [] => l
  | l, pos, b :: rest => overwriteAt (listSet l pos b) (pos + 1) rest

def replaceInstruction (st : CState) (pos : Nat) (newIns : List Nat) : CState :=
  modifyScope st (fun sc =>
    { sc with instructions := overwriteAt sc.instructions pos newIns })

/-- Go `changeOperand`: re-`Make` the opcode found at `pos` with the new
operand (an unknown byte would make `Make` produce no bytes, a no-op
rewrite). -/
def changeOperand (st : CState) (pos : Nat) (operand : Nat) : CState :=
  match (currentInstructions st).get? pos with
  | none => st
  | some b =>
      match opcodeOfByte b with
      | none => replaceInstruction st pos []
      | some op => replaceInstruction st pos ((Make op [operand]).getD [])

def enterScope (st : CState) : CState :=
  { st with
    scopes := emptyScope :: st.scopes,
    symbolTable := NewEnclosedSymbolTable st.symbolTable }

/-- Go `leaveScope`: pop the scope, return its instructions, and step the
symbol table out (the outer table exists whenever `leaveScope` pairs an
`enterScope`). -/
def leaveScope (st : CState) : CState × List Nat :=
  let ins := currentInstructions st
  ({ st with
      scopes := st.scopes.tail,
      symbolTable := st.symbolTable.outer.getD NewSymbolTable }, ins)

def replaceLastPopWithReturn (st : CState) : CState :=
  let pos := (currentScope st).lastInstruction.position
  let st' := replaceInstruction st pos ((Make .opReturnValue []).getD [])
  modifyScope st' (fun sc =>
    { sc with lastInstruction := { sc.lastInstruction with opCode := .opReturnValue } })

/-- Go `loadSymbol`: the switch emits for `GLOBAL`, `LOCAL` and `BUILTIN`
scopes only; it has no case for `FREE` or `FUNCTION`, so those resolve to no
emission at all. -/
def loadSymbol (st : CState) (s : Symbol) : CState :=
  match s.scope with
  | .globalScope => (emit st .opGetGlobal [s.index]).1
  | .localScope => (emit st .opGetLocal [s.index]).1
  | .builtinScope => (emit st .opGetBuiltin [s.index]).1
  | _ => st

/-- Hash-literal keys sorted by their canonical string (Go sorts the map's
keys with `sort.Slice` and a `String()` comparison; iteration order of the
map and the order of equal strings are unspecified, so the pairs are sorted
stably here). -/
def sortHashPairs (pairs : List (Expr × Expr)) : List (Expr × Expr) :=
  pairs.mergeSort (fun a b => decide (exprString a.1 ≤ exprString b.1))

mutual

/-- Go `(*Compiler).Compile`, the full version with scopes, locals and
function literals.  Fuel models the Go call stack. -/
def compileF (fuel : Nat) (node : Node) (st : CState) : Except String CState :=
  match fuel with
  | 0 => .error "compiler fuel exhausted"
  | n + 1 =>
      match node with
      | .program stmts => compileStmtsF n stmts st
      | .stmt (.blockStmt stmts) => compileStmtsF n stmts st
      | .stmt (.exprStmt e) =>
          match compileF n (.expr e) st with
          | .error m => .error m
          | .ok st' => .ok (emit st' .opPop []).1
      | .stmt (.letStmt name e) =>
          match compileF n (.expr e) st with
          | .error m => .error m
          | .ok st' =>
              let p := st'.symbolTable.define name
              let st'' := { st' with symbolTable := p.1 }
              if p.2.scope = .globalScope then
                .ok (emit st'' .opSetGlobal [p.2.index]).1
              else
                .ok (emit st'' .opSetLocal [p.2.index]).1
      | .stmt (.returnStmt e) =>
          match compileF n (.expr e) st with
          | .error m => .error m
          | .ok st' => .ok (emit st' .opReturnValue []).1
      | .expr (.integerLiteral v) =>
          let p := addConstant st (.intV v)
          .ok (emit p.1 .opConstant [p.2]).1
      | .expr (.booleanLiteral b) =>
          .ok (emit st (cond b .opTrue .opFalse) []).1
      | .expr (.stringLiteral s) =>
          let q := allocCId st
          let p := addConstant q.1 (.strV q.2 s)
          .ok (emit p.1 .opConstant [p.2]).1
      | .expr (.prefixExpr op right) =>
          match compileF n (.expr right) st with
          | .error m => .error m
          | .ok st' =>
              match op with
              | "!" => .ok (emit st' .opBang []).1
              | "-" => .ok (emit st' .opMinus []).1
              | _ => .error ("unsupported prefix operator " ++ op)
      | .expr (.infixExpr op left right) =>
          if op = "<" then
            match compileF n (.expr right) st with
            | .error m => .error m
            | .ok st' =>
                match compileF n (.expr left) st' with
                | .error m => .error m
                | .ok st'' => .ok (emit st'' .opGreaterThan []).1
          else
            match compileF n (.expr left) st with
            | .error m => .error m
            | .ok st' =>
                match compileF n (.expr right) st' with
                | .error m => .error m
                | .ok st'' =>
                    match op with
                    | "+" => .ok (emit st'' .opAdd []).1
                    | "-" => .ok (emit st'' .opSub []).1
                    | "*" => .ok (emit st'' .opMul []).1
                    | "/" => .ok (emit st'' .opDiv []).1
                    | ">" => .ok (emit st'' .opGreaterThan []).1
                    | "==" => .ok (emit st'' .opEqual []).1
                    | "!=" => .ok (emit st'' .opNotEqual []).1
                    | _ => .error ("unsupported operator " ++ op)
      | .expr (.ifExpr c cons alt) =>
          match compileF n (.expr c) st with
          | .error m => .error m
          | .ok st1 =>
              let q1 := emit st1 .opJumpNotTruthy [9999]
              match compileF n (.stmt (.blockStmt cons)) q1.1 with
              | .error m => .error m
              | .ok st3 =>
                  let st4 := if lastInstructionIs st3 .opPop then removeLastPop st3 else st3
                  let q2 := emit st4 .opJump [9999]
                  let st6 := changeOperand q2.1 q1.2 (currentInstructions q2.1).length
                  match alt with
                  | none =>
                      let st7 := (emit st6 .opNull []).1
                      .ok (changeOperand st7 q2.2 (currentInstructions st7).length)
                  | some a =>
                      match compileF n (.stmt (.blockStmt a)) st6 with
                      | .error m => .error m
                      | .ok st7 =>
                          let st8 :=
                            if lastInstructionIs st7 .opPop then removeLastPop st7 else st7
                          .ok (changeOperand st8 q2.2 (currentInstructions st8).length)
      | .expr (.identifier name) =>
          let p := st.symbolTable.resolve name
          let st' := { st with symbolTable := p.1 }
          match p.2 with
          | none => .error ("identifier not found: " ++ name)
          | some sym => .ok (loadSymbol st' sym)
      | .expr (.arrayLiteral elems) =>
          match compileExprsF n elems st with
          | .error m => .error m
          | .ok st' => .ok (emit st' .opArray [elems.length]).1
      | .expr (.hashLiteral pairs) =>
          match compileHashPairsF n (sortHashPairs pairs) st with
          | .error m => .error m
          | .ok st' => .ok (emit st' .opHash [pairs.length * 2]).1
      | .expr (.indexExpr l i) =>
          match compileF n (.expr l) st with
          | .error m => .error m
          | .ok st' =>
              match compileF n (.expr i) st' with
              | .error m => .error m
              | .ok st'' => .ok (emit st'' .opIndex []).1
      | .expr (.functionLiteral params body) =>
          let st1 := enterScope st
          let st2 :=
            params.foldl (fun s pname => { s with symbolTable := (s.symbolTable.define pname).1 }) st1
          match compileF n (.stmt (.blockStmt body)) st2 with
          | .error m => .error m
          | .ok st3 =>
              let st4 :=
                if lastInstructionIs st3 .opPop then replaceLastPopWithReturn st3 else st3
              let st5 :=
                if !lastInstructionIs st4 .opReturnValue then (emit st4 .opReturn []).1 else st4
              let numLocals := st5.symbolTable.numDefinitions
              let q := leaveScope st5
              let p := addConstant q.1 (.compiledFnV q.2 numLocals params.length)
              .ok (emit p.1 .opClosure [p.2, 0]).1
      | .expr (.callExpr f args) =>
          match compileF n (.expr f) st with
          | .error m => .error m
          | .ok st' =>
              match compileExprsF n args st' with
              | .error m => .error m
              | .ok st'' => .ok (emit st'' .opCall [args.length]).1
termination_by structural fuel

/-- The statement loops of the `Program` and `BlockStatement` cases. -/
def compileStmtsF (fuel : Nat) (stmts : List Stmt) (st : CState) :
    Except String CState :=
  match fuel with
  | 0 => .error "compiler fuel exhausted"
  | n + 1 =>
      match stmts with
      | [] => .ok st
      | s :: ss =>
          match compileF n (.stmt s) st with
          | .error m => .error m
          | .ok st' => compileStmtsF n ss st'
termination_by structural fuel

/-- The element loops of the `ArrayLiteral` and `CallExpression` cases. -/
def compileExprsF (fuel : Nat) (es : List Expr) (st : CState) :
    Except String CState :=
  match fuel with
  | 0 => .error "compiler fuel exhausted"
  | n + 1 =>
      match es with
      | [] => .ok st
      | e :: rest =>
          match compileF n (.expr e) st with
          | .error m => .error m
          | .ok st' => compileExprsF n rest st'
termination_by structural fuel

/-- The pair loop of the `HashLiteral` case, over the sorted pairs. -/
def compileHashPairsF (fuel : Nat) (pairs : List (Expr × Expr)) (st : CState) :
    Except String CState :=
  match fuel with
  | 0 => .error "compiler fuel exhausted"
  | n + 1 =>
      match pairs with
      | [] => .ok st
      | (k, v) :: rest =>
          match compileF n (.expr k) st with
          | .error m => .error m
          | .ok st' =>
              match compileF n (.expr v) st' with
              | .error m => .error m
              | .ok st'' => compileHashPairsF n rest st''
termination_by structural fuel

end

/-- Compile a whole program from the fresh compiler state. -/
def compileProgram (fuel : Nat) (stmts : List Stmt) : Except String CState :=
  compileF fuel (.program stmts) compilerNew

/-- Go `Bytecode()`: the current (main) scope's instructions and the constant
pool. -/
def bytecodeOf (st : CState) : List Nat × List Obj :=
  (currentInstructions st, st.constants)

/-! ## Virtual machine (vm/vm.go)

The version with globals, strings and arrays.  The stack is preallocated in
Go; here it is a list written through `stackWrite`, with `sp` pointing at the
next free slot — popped slots keep their old contents, which is what
`LastPoppedStackElem` reads.  The dense nil-initialised globals array is an
association list from index to the objects actually stored; fetching a global
that was never set would push the nil interface and is modelled as a fault
(compiler-produced bytecode always stores a global before loading it).
Faults — popping an empty stack, malformed operands, unknown constant
indices — are `none`; `some (.error m)` is the error return of `Run`. -/

structure VMSt where
  constants : List Obj
  instructions : List Nat
  stack : List Obj
  sp : Nat
  globals : List (Nat × Obj)
  arrays : List (List Obj)
  nextId : Nat
deriving Repr

/-- `vm.New` over a compiled program, inheriting the compiler's allocation
counter (the constants were allocated by the same process). -/
def vmNew (c : CState) : VMSt :=
  ⟨c.constants, currentInstructions c, [], 0, [], [], c.nextId⟩

/-- Write the slot `stack[sp]`; `sp` never exceeds the list length by more
than zero, so the write either replaces a popped slot or appends. -/
def stackWrite (l : List Obj) (i : Nat) (v : Obj) : List Obj :=
  if i < l.length then l.set i v else l ++ [v]

/-- Go `push` (the 2048-slot capacity check). -/
def vmPush (st : VMSt) (o : Obj) : Except String VMSt :=
  if st.sp ≥ 2048 then .error "stack overflow"
  else .ok { st with stack := stackWrite st.stack st.sp o, sp := st.sp + 1 }

/-- Go `pop`: reading `stack[sp-1]` with `sp = 0` faults. -/
def vmPop (st : VMSt) : Option (Obj × VMSt) :=
  match st.sp with
  | 0 => none
  | i + 1 => (st.stack.get? i).map (fun o => (o, { st with sp := i }))

/-- Go `LastPoppedStackElem`: the slot just past the top. -/
def vmLastPopped (st : VMSt) : Option Obj :=
  st.stack.get? st.sp

def vmAllocId (st : VMSt) : VMSt × Nat :=
  ({ st with nextId := st.nextId + 1 }, st.nextId)

def vmAllocArray (st : VMSt) (elems : List Obj) : VMSt × Nat :=
  ({ st with arrays := st.arrays ++ [elems] }, st.arrays.length)

/-- The VM's `isTruthy`: a type switch, not an identity comparison — any
`*object.Boolean` unwraps its value, any `*object.Null` is false. -/
def vmIsTruthy : Obj → Bool
  | .boolV b => b
  | .nullV => false
  | .nullA _ => false
  | _ => true

/-- The `%c` formatting of an opcode byte in the VM's unknown-operator
messages. -/
def opAsChar (op : Opcode) : String :=
  String.singleton (Char.ofNat (opcodeByte op))

/-- Go `executeBinaryIntegerOperation`: the arithmetic opcodes on the two
`int64` payloads, pushing the wrapped result; `OpDiv` is the unguarded host
division. -/
def executeBinaryIntegerOperation (st : VMSt) (op : Opcode) (a b : Int) :
    Option (Except String VMSt) :=
  match op with
  | .opAdd => some (vmPush st (.intV (wrap64 (a + b))))
  | .opSub => some (vmPush st (.intV (wrap64 (a - b))))
  | .opMul => some (vmPush st (.intV (wrap64 (a * b))))
  | .opDiv =>
      match goDiv a b with
      | none => none
      | some r => some (vmPush st (.intV r))
  | _ => some (.error ("unknown operator: " ++ opAsChar op))

/-- Go `executeBinaryStringOperation`: only `OpAdd`, allocating the
concatenation. -/
def executeBinaryStringOperation (st : VMSt) (op : Opcode) (a b : String) :
    Option (Except String VMSt) :=
  if op ≠ .opAdd then
    some (.error ("unknown operator: " ++ opAsChar op ++ " (STRING STRING)"))
  else
    let p := vmAllocId st
    some (vmPush p.1 (.strV p.2 (a ++ b)))

/-- Go `executeBinaryOperation`: pop right then left; integers and strings
each dispatch on matching type tags, anything else is the unsupported-types
error. -/
def executeBinaryOperation (st : VMSt) (op : Opcode) :
    Option (Except String VMSt) :=
  match vmPop st with
  | none => none
  | some (right, st1) =>
      match vmPop st1 with
      | none => none
      | some (left, st2) =>
          match left, right with
          | .intV a, .intV b => executeBinaryIntegerOperation st2 op a b
          | .strV _ a, .strV _ b => executeBinaryStringOperation st2 op a b
          | _, _ =>
              match typeOf? left, typeOf? right with
              | some lt, some rt =>
                  some (.error ("unsupported types for binary operation: " ++
                    lt ++ " " ++ rt))
              | _, _ => none

/-- Go `executeIntegerComparison`. -/
def executeIntegerComparison (st : VMSt) (op : Opcode) (a b : Int) :
    Option (Except String VMSt) :=
  match op with
  | .opEqual => some (vmPush st (.boolV (a = b)))
  | .opNotEqual => some (vmPush st (.boolV (a ≠ b)))
  | .opGreaterThan => some (vmPush st (.boolV (b < a)))
  | _ => some (.error ("unknown operator: " ++ opAsChar op))

/-- Go `executeComparison`: integer pairs by value, otherwise `OpEqual` and
`OpNotEqual` compare interface identity (`%d` formatting in the error). -/
def executeComparison (st : VMSt) (op : Opcode) : Option (Except String VMSt) :=
  match vmPop st with
  | none => none
  | some (right, st1) =>
      match vmPop st1 with
      | none => none
      | some (left, st2) =>
          match left, right with
          | .intV a, .intV b => executeIntegerComparison st2 op a b
          | _, _ =>
              match op with
              | .opEqual => some (vmPush st2 (.boolV (goEq left right)))
              | .opNotEqual => some (vmPush st2 (.boolV (!goEq left right)))
              | _ =>
                  match typeOf? left, typeOf? right with
                  | some lt, some rt =>
                      some (.error ("unknown operator: " ++
                        toString (opcodeByte op) ++ " (" ++ lt ++ " " ++ rt ++ ")"))
                  | _, _ => none

/-- Go `executeBangOperator`: identity switch against the canonical
singletons, like the evaluator's. -/
def vmExecuteBang (st : VMSt) : Option (Except String VMSt) :=
  match vmPop st with
  | none => none
  | some (operand, st1) => some (vmPush st1 (evalBang operand))

/-- Go `executeMinusOperator`. -/
def vmExecuteMinus (st : VMSt) : Option (Except String VMSt) :=
  match vmPop st with
  | none => none
  | some (operand, st1) =>
      match operand with
      | .intV v => some (vmPush st1 (.intV (wrap64 (-v))))
      | o =>
          (typeOf? o).map
            (fun t => .error ("unsupported type for negation: " ++ t))

/-- Big-endian `ReadUint16` at an absolute offset of the instruction
stream. -/
def readU16At (ins : List Nat) (i : Nat) : Option Nat :=
  match ins.get? i, ins.get? (i + 1) with
  | some b0, some b1 => some (b0 * 256 + b1)
  | _, _ => none

/-- Go `buildArray`: the stack slots `[startIndex, endIndex)`. -/
def vmBuildArray (st : VMSt) (startIndex endIndex : Nat) : List Obj :=
  (st.stack.drop startIndex).take (endIndex - startIndex)

/-- The dispatch loop of Go `Run`.  `ip` is the loop variable; the operand
decodes advance it, and the post-iteration `ip++` is folded into the
successor ip each branch computes (a jump to `pos` sets `ip = pos - 1` and
the increment lands on `pos`).  Opcodes the loop has no case for — among
them every call-, closure-, local-, hash- and index-related opcode — hit the
default and return the unknown-opcode error. -/
def vmRunF (fuel : Nat) (st : VMSt) (ip : Nat) : Option (Except String VMSt) :=
  match fuel with
  | 0 => none
  | n + 1 =>
      if h : ip < st.instructions.length then
        match opcodeOfByte (st.instructions.get ⟨ip, h⟩) with
        | none =>
            some (.error ("unknown opcode: " ++
              toString (st.instructions.get ⟨ip, h⟩)))
        | some op =>
            match op with
            | .opConstant =>
                match readU16At st.instructions (ip + 1) with
                | none => none
                | some idx =>
                    match st.constants.get? idx with
                    | none => none
                    | some c =>
                        match vmPush st c with
                        | .error m => some (.error m)
                        | .ok st' => vmRunF n st' (ip + 3)
            | .opAdd =>
                match executeBinaryOperation st op with
                | none => none
                | some (.error m) => some (.error m)
                | some (.ok st') => vmRunF n st' (ip + 1)
            | .opSub =>
                match executeBinaryOperation st op with
                | none => none
                | some (.error m) => some (.error m)
                | some (.ok st') => vmRunF n st' (ip + 1)
            | .opMul =>
                match executeBinaryOperation st op with
                | none => none
                | some (.error m) => some (.error m)
                | some (.ok st') => vmRunF n st' (ip + 1)
            | .opDiv =>
                match executeBinaryOperation st op with
                | none => none
                | some (.error m) => some (.error m)
                | some (.ok st') => vmRunF n st' (ip + 1)
            | .opPop =>
                match vmPop st with
                | none => none
                | some (_, st') => vmRunF n st' (ip + 1)
            | .opTrue =>
                match vmPush st (.boolV true) with
                | .error m => some (.error m)
                | .ok st' => vmRunF n st' (ip + 1)
            | .opFalse =>
                match vmPush st (.boolV false) with
                | .error m => some (.error m)
                | .ok st' => vmRunF n st' (ip + 1)
            | .opEqual =>
                match executeComparison st op with
                | none => none
                | some (.error m) => some (.error m)
                | some (.ok st') => vmRunF n st' (ip + 1)
            | .opNotEqual =>
                match executeComparison st op with
                | none => none
                | some (.error m) => some (.error m)
                | some (.ok st') => vmRunF n st' (ip + 1)
            | .opGreaterThan =>
                match executeComparison st op with
                | none => none
                | some (.error m) => some (.error m)
                | some (.ok st') => vmRunF n st' (ip + 1)
            | .opBang =>
                match vmExecuteBang st with
                | none => none
                | some (.error m) => some (.error m)
                | some (.ok st') => vmRunF n st' (ip + 1)
            | .opMinus =>
                match vmExecuteMinus st with
                | none => none
                | some (.error m) => some (.error m)
                | some (.ok st') => vmRunF n st' (ip + 1)
            | .opJump =>
                match readU16At st.instructions (ip + 1) with
                | none => none
                | some pos => vmRunF n st pos
            | .opJumpNotTruthy =>
                match readU16At st.instructions (ip + 1) with
                | none => none
                | some pos =>
                    match vmPop st with
                    | none => none
                    | some (cond, st') =>
                        if !vmIsTruthy cond then vmRunF n st' pos
                        else vmRunF n st' (ip + 3)
            | .opNull =>
                match vmPush st .nullV with
                | .error m => some (.error m)
                | .ok st' => vmRunF n st' (ip + 1)
            | .opSetGlobal =>
                match readU16At st.instructions (ip + 1) with
                | none => none
                | some idx =>
                    match vmPop st with
                    | none => none
                    | some (v, st') =>
                        vmRunF n
                          { st' with globals := (idx, v) :: st'.globals.filter (fun p => p.1 ≠ idx) }
                          (ip + 3)
            | .opGetGlobal =>
                match readU16At st.instructions (ip + 1) with
                | none => none
                | some idx =>
                    match (st.globals.find? (fun p => p.1 = idx)).map Prod.snd with
                    | none => none
                    | some v =>
                        match vmPush st v with
                        | .error m => some (.error m)
                        | .ok st' => vmRunF n st' (ip + 3)
            | .opArray =>
                match readU16At st.instructions (ip + 1) with
                | none => none
                | some len =>
                    if len ≤ st.sp then
                      let elems := vmBuildArray st (st.sp - len) st.sp
                      let p := vmAllocArray { st with sp := st.sp - len } elems
                      match vmPush p.1 (.arrV p.2) with
                      | .error m => some (.error m)
                      | .ok st' => vmRunF n st' (ip + 3)
                    else none
            | _ =>
                some (.error ("unknown opcode: " ++ toString (opcodeByte op)))
      else some (.ok st)

/-- Compile a program and return the `Run` outcome of a fresh VM on it
(`none` when compilation fails or the run faults or exhausts fuel). -/
def vmRunOutcome (fuel : Nat) (stmts : List Stmt) : Option (Except String VMSt) :=
  match compileProgram fuel stmts with
  | .error _ => none
  | .ok c => vmRunF fuel (vmNew c) 0

/-- What the REPL and the tests observe from the VM backend: compile, run,
and on a clean finish read `LastPoppedStackElem`. -/
def vmFinal (fuel : Nat) (stmts : List Stmt) : Option Obj :=
  match vmRunOutcome fuel stmts with
  | some (.ok st) => vmLastPopped st
  | _ => none

/-! ## Concrete inputs used by the claim theorems -/

/-- The operand-list side condition of the `Make`/`ReadOperands` round trip:
one operand per declared width, each fitting its width. -/
def OperandsFit (op : Opcode) (ops : List Nat) : Prop :=
  ops.length = (definitions op).operandWidths.length ∧
    ∀ p ∈ ops.zip (definitions op).operandWidths, p.1 < 2 ^ (8 * p.2)

instance (op : Opcode) (ops : List Nat) : Decidable (OperandsFit op ops) := by
  unfold OperandsFit; infer_instance

/-- The opcode the compiler's infix switch emits for each supported operator
other than `<`. -/
def binaryOpcodeOf : String → Option Opcode
  | "+" => some .opAdd
  | "-" => some .opSub
  | "*" => some .opMul
  | "/" => some .opDiv
  | ">" => some .opGreaterThan
  | "==" => some .opEqual
  | "!=" => some .opNotEqual
  | _ => none

/-- `"a" == "a"` as a program. -/
def strEqProg : List Stmt :=
  [.exprStmt (.infixExpr "==" (.stringLiteral "a") (.stringLiteral "a"))]

/-- `fn() { 1 }()` as a program. -/
def callProg : List Stmt :=
  [.exprStmt (.callExpr (.functionLiteral [] [.exprStmt (.integerLiteral 1)]) [])]

/-- The spec's seed case 4: `let a = [1, 2, 3]; push(a, 4); len(a)`. -/
def pushSeedProg : List Stmt :=
  [.letStmt "a" (.arrayLiteral
     [.integerLiteral 1, .integerLiteral 2, .integerLiteral 3]),
   .exprStmt (.callExpr (.identifier "push") [.identifier "a", .integerLiteral 4]),
   .exprStmt (.callExpr (.identifier "len") [.identifier "a"])]

/-- `fn(a) { fn(b) { a + b } }`: the inner function refers to the enclosing
function's parameter, the canonical closure-capture situation. -/
def closureProg : List Stmt :=
  [.exprStmt (.functionLiteral ["a"]
     [.exprStmt (.functionLiteral ["b"]
        [.exprStmt (.infixExpr "+" (.identifier "a") (.identifier "b"))])])]

/-- `1 < 2` as a program. -/
def lessProg : List Stmt :=
  [.exprStmt (.infixExpr "<" (.integerLiteral 1) (.integerLiteral 2))]

/-- `1 + 2` as a program. -/
def plusProg : List Stmt :=
  [.exprStmt (.infixExpr "+" (.integerLiteral 1) (.integerLiteral 2))]

/-- A symbol table frame holding only the function-scope name `f`, and a
frame enclosed in it. -/
def fnNameTable : SymbolTable := (NewSymbolTable.defineFunctionName "f").1

def fnNameInner : SymbolTable := NewEnclosedSymbolTable fnNameTable

/-- A local-scope definition of `x` in an enclosed frame, and a frame
enclosed in that. -/
def localXTable : SymbolTable :=
  ((NewEnclosedSymbolTable NewSymbolTable).define "x").1

/-- An evaluator-side heap with one three-element array, for the builtin
theorems. -/
def lenSt : EvalSt :=
  { initialEvalSt with arrays := [[.intV 1, .intV 2, .intV 3]] }

/-- An evaluator-side heap with one singleton array, for the `push`
witness. -/
def pushSt : EvalSt :=
  { initialEvalSt with arrays := [[.intV 1]] }

/-- A VM state with `1` and `0` on the stack, about to divide. -/
def divVmSt : VMSt :=
  ⟨[], [], [.intV 1, .intV 0], 2, [], [], 0⟩

/-- The compiler state after compiling the right operand `2` of `1 < 2`. -/
def ltState1 : CState :=
  ((compileF 2 (.expr (.integerLiteral 2)) compilerNew).toOption).getD compilerNew

/-- The compiler state after then compiling the left operand `1`. -/
def ltState2 : CState :=
  ((compileF 2 (.expr (.integerLiteral 1)) ltState1).toOption).getD compilerNew

/-! ## Theorems -/

/-- Every operand width in the definitions table is one or two bytes. -/
theorem operandWidths_one_or_two (op : Opcode) :
    ∀ w ∈ (definitions op).operandWidths, w = 1 ∨ w = 2 := by
  cases op <;> decide

/-- Writing then reading a fitting operand list round-trips, the offset
accumulating the widths. -/
theorem writeOperands_readOperandsAux (ws os : List Nat)
    (hw : ∀ w ∈ ws, w = 1 ∨ w = 2)
    (hlen : os.length = ws.length)
    (hfit : ∀ p ∈ os.zip ws, p.1 < 2 ^ (8 * p.2)) :
    ∃ bs, writeOperands ws os = some bs ∧
      readOperandsAux ws bs = some (os, ws.sum) := by
  induction os generalizing ws with
  | nil =>
      cases ws with
      | nil => exact ⟨[], rfl, rfl⟩
      | cons w ws' => simp at hlen
  | cons o os' ih =>
      cases ws with
      | nil => simp at hlen
      | cons w ws' =>
          have hw' : ∀ w' ∈ ws', w' = 1 ∨ w' = 2 := fun w' h => hw w' (by simp [h])
          have hlen' : os'.length = ws'.length := by simpa using hlen
          have hfit' : ∀ p ∈ os'.zip ws', p.1 < 2 ^ (8 * p.2) := by
            intro p hp; exact hfit p (by simp [List.zip_cons_cons, hp])
          obtain ⟨bs, hwr, hrd⟩ := ih ws' hw' hlen' hfit'
          have hofit : o < 2 ^ (8 * w) := hfit (o, w) (by simp [List.zip_cons_cons])
          refine ⟨writeOperand w o ++ bs, ?_, ?_⟩
          · simp [writeOperands, hwr]
          · rcases hw w (by simp) with h1 | h2
            · subst h1
              have ho : o < 256 := by simpa using hofit
              simp [writeOperand, readOperandsAux, hrd, Nat.mod_eq_of_lt ho,
                List.sum_cons, Nat.add_comm]
            · subst h2
              have ho : o < 65536 := by simpa using hofit
              have hsplit : o % 65536 / 256 * 256 + o % 256 = o := by
                rw [Nat.mod_eq_of_lt ho, Nat.mul_comm]
                exact Nat.div_add_mod o 256
              simp [writeOperand, readOperandsAux, hrd, hsplit,
                List.sum_cons, Nat.add_comm]

/-- C10: `Make(OpConstant, 65534)` produces exactly the three bytes
`[byte(OpConstant), 0xFF, 0xFE]`, and for every opcode that has a definition
and every operand list whose values fit the definition's operand widths,
`ReadOperands(def, Make(op, ops...)[1:])` returns exactly `ops` together with
an offset equal to the sum of the operand widths. -/
theorem make_readOperands_roundtrip :
    Make .opConstant [65534] = some [0, 255, 254] ∧
    ∀ (op : Opcode) (ops : List Nat), OperandsFit op ops →
      ∃ bs, Make op ops = some (opcodeByte op :: bs) ∧
        ReadOperands (definitions op) bs =
          some (ops, (definitions op).operandWidths.sum) := by
  refine ⟨by decide, ?_⟩
  intro op ops h
  obtain ⟨bs, hwr, hrd⟩ := writeOperands_readOperandsAux
    (definitions op).operandWidths ops (operandWidths_one_or_two op) h.1 h.2
  exact ⟨bs, by simp [Make, hwr], hrd⟩

/-- Witness for C10 at `Make(OpClosure, 65534, 255)`, the shape tested by
code/code_test.go. -/
theorem make_readOperands_roundtrip_witness :
    ∃ bs, Make .opClosure [65534, 255] = some (opcodeByte .opClosure :: bs) ∧
      ReadOperands (definitions .opClosure) bs =
        some ([65534, 255], (definitions .opClosure).operandWidths.sum) :=
  make_readOperands_roundtrip.2 .opClosure [65534, 255] (by decide)

/-- C9: compiling `a < b` emits the code of the right operand `b` first, then
the code of the left operand `a`, then a single `OpGreaterThan`; no
`OpLessThan` opcode exists in the instruction set; every other supported
binary operator compiles left before right, followed by its opcode.  The
concrete runs make the ordering observable through the constant pool:
`1 < 2` pools its constants as `[2, 1]` and emits
`[OpConstant 0, OpConstant 1, OpGreaterThan, OpPop]`, while `1 + 2` pools
`[1, 2]`. -/
theorem compiler_comparison_ordering :
    (∀ (n : Nat) (a b : Expr) (s s1 s2 : CState),
       compileF n (.expr b) s = .ok s1 →
       compileF n (.expr a) s1 = .ok s2 →
       compileF (n + 1) (.expr (.infixExpr "<" a b)) s =
         .ok (emit s2 .opGreaterThan []).1) ∧
    (∀ op : Opcode, (definitions op).name ≠ "OpLessThan") ∧
    (∀ (n : Nat) (op : String) (bop : Opcode) (a b : Expr) (s s1 s2 : CState),
       binaryOpcodeOf op = some bop →
       compileF n (.expr a) s = .ok s1 →
       compileF n (.expr b) s1 = .ok s2 →
       compileF (n + 1) (.expr (.infixExpr op a b)) s = .ok (emit s2 bop []).1) ∧
    (compileProgram 99 lessProg).map bytecodeOf =
      .ok ([0, 0, 0, 0, 0, 1, 10, 2], [.intV 2, .intV 1]) ∧
    (compileProgram 99 plusProg).map bytecodeOf =
      .ok ([0, 0, 0, 0, 0, 1, 1, 2], [.intV 1, .intV 2]) := by
  refine ⟨?_, ?_, ?_, by rfl, by rfl⟩
  · intro n a b s s1 s2 hb ha
    rw [compileF]
    simp only [hb, ha]
    rfl
  · intro op; cases op <;> decide
  · intro n op bop a b s s1 s2 hop ha hb
    rw [compileF]
    have hne : ¬ op = "<" := by
      intro h; subst h; simp [binaryOpcodeOf] at hop
    simp only [if_neg hne, ha, hb]
    unfold binaryOpcodeOf at hop
    split at hop <;>
      first
        | (injection hop with h; subst h; rfl)
        | (exact absurd hop (by simp))

/-- Witness for C9 at `1 < 2` from the fresh compiler state. -/
theorem compiler_comparison_ordering_witness :
    compileF 3 (.expr (.infixExpr "<" (.integerLiteral 1) (.integerLiteral 2)))
      compilerNew = .ok (emit ltState2 .opGreaterThan []).1 :=
  compiler_comparison_ordering.1 2 (.integerLiteral 1) (.integerLiteral 2)
    compilerNew ltState1 ltState2 rfl rfl

/-- C6 counterexample: a frame whose outer holds `f` with `FUNCTION` scope.
The claim says such a symbol is returned unchanged, but `Resolve` promotes
it: the outer store has `f` at `FUNCTION` scope, yet the enclosed frame's
resolution yields a `FREE` symbol. -/
theorem resolve_function_scope_counterexample :
    assocFind fnNameTable.store "f" = some ⟨"f", .functionScope, 0⟩ ∧
    (fnNameInner.resolve "f").2 = some ⟨"f", .freeScope, 0⟩ ∧
    SymbolScope.freeScope ≠ SymbolScope.functionScope := by
  exact ⟨rfl, rfl, by decide⟩

/-- C6 as amended: `Resolve` looks in the local frame; when the name is
absent locally and the outer resolution finds a symbol, the symbol is
returned unchanged if and only if its scope is `GLOBAL` or `BUILTIN`, and is
otherwise (scopes `LOCAL`, `FREE` and also `FUNCTION`) promoted to a `FREE`
symbol whose index is its position in this frame's `FreeSymbols` list. -/
theorem resolve_promotion_rule (store : List (String × Symbol)) (n : Nat)
    (free : List Symbol) (o o' : SymbolTable) (name : String) (sym : Symbol)
    (hlocal : assocFind store name = none)
    (houter : o.resolve name = (o', some sym)) :
    SymbolTable.resolve (.mk store n free (some o)) name =
      if sym.scope = .globalScope ∨ sym.scope = .builtinScope then
        (.mk store n free (some o'), some sym)
      else
        (.mk (assocSet store sym.name ⟨sym.name, .freeScope, free.length⟩) n
           (free ++ [sym]) (some o'),
         some ⟨sym.name, .freeScope, free.length⟩) := by
  by_cases h : sym.scope = .globalScope ∨ sym.scope = .builtinScope
  · have h' : ¬(sym.scope ≠ .globalScope ∧ sym.scope ≠ .builtinScope) := by tauto
    simp only [SymbolTable.resolve, hlocal, houter, if_neg h', if_pos h]
  · have h' : sym.scope ≠ .globalScope ∧ sym.scope ≠ .builtinScope := by tauto
    simp only [SymbolTable.resolve, hlocal, houter, if_pos h', if_neg h,
      SymbolTable.defineFree]

/-- Witness for C6 as amended: resolving `x`, a `LOCAL` of the enclosing
frame, from an enclosed empty frame. -/
theorem resolve_promotion_rule_witness :
    SymbolTable.resolve (.mk [] 0 [] (some localXTable)) "x" =
      if (SymbolScope.localScope = .globalScope ∨
          SymbolScope.localScope = .builtinScope) then
        (.mk [] 0 [] (some localXTable), some ⟨"x", .localScope, 0⟩)
      else
        (.mk (assocSet [] "x" ⟨"x", .freeScope, 0⟩) 0
           ([] ++ [⟨"x", .localScope, 0⟩]) (some localXTable),
         some ⟨"x", .freeScope, 0⟩) :=
  resolve_promotion_rule [] 0 [] localXTable localXTable "x"
    ⟨"x", .localScope, 0⟩ rfl rfl

/-- C5 counterexample: dividing `1` by `0` in either backend is not rejected
with an error result — the unguarded host division executes and faults
(`none`), in the evaluator's integer-infix helper, through the evaluator's
full infix dispatch, and through the VM's binary-operation dispatch with
`1` and `0` popped from the stack. -/
theorem division_by_zero_unguarded_counterexample :
    evalIntegerInfixExpression "/" 1 0 = none ∧
    evalInfixExpression "/" (.intV 1) (.intV 0) initialEvalSt = none ∧
    executeBinaryOperation divVmSt .opDiv = none := by
  exact ⟨rfl, rfl, rfl⟩

/-- C5 as amended: for a non-zero divisor both backends produce the host's
64-bit truncating quotient (`wrap64 (Int.tdiv l r)`, truncation toward zero
with the `MinInt64 / -1` wrap); a zero divisor is not guarded anywhere — the
host division faults in both backends. -/
theorem division_semantics (l r : Int) (st : EvalSt) (vst : VMSt)
    (hr : r ≠ 0) :
    evalInfixExpression "/" (.intV l) (.intV r) st =
      some (st, .intV (wrap64 (Int.tdiv l r))) ∧
    executeBinaryIntegerOperation vst .opDiv l r =
      some (vmPush vst (.intV (wrap64 (Int.tdiv l r)))) ∧
    evalInfixExpression "/" (.intV l) (.intV 0) st = none ∧
    executeBinaryIntegerOperation vst .opDiv l 0 = none := by
  refine ⟨?_, ?_, ?_, ?_⟩ <;>
    simp [evalInfixExpression, evalIntegerInfixExpression,
      executeBinaryIntegerOperation, goDiv, hr]

/-- Witness for C5 at `7 / 2` (and `7 / 0`). -/
theorem division_semantics_witness :
    evalInfixExpression "/" (.intV 7) (.intV 2) initialEvalSt =
      some (initialEvalSt, .intV (wrap64 (Int.tdiv 7 2))) ∧
    executeBinaryIntegerOperation divVmSt .opDiv 7 2 =
      some (vmPush divVmSt (.intV (wrap64 (Int.tdiv 7 2)))) ∧
    evalInfixExpression "/" (.intV 7) (.intV 0) initialEvalSt = none ∧
    executeBinaryIntegerOperation divVmSt .opDiv 7 0 = none :=
  division_semantics 7 2 initialEvalSt divVmSt (by decide)

/-- C2 counterexample: evaluating the program `"a" == "a"` with the tree
walker yields the in-band ERROR `unsupported operator: STRING == STRING`,
not the shared `True` — two equal strings reach `evalStringInfixExpression`,
which supports only `+`, before the equality branch is ever consulted. -/
theorem string_equality_is_error_counterexample :
    runEvalResult 99 strEqProg =
      some (.errV "unsupported operator: STRING == STRING") ∧
    Obj.errV "unsupported operator: STRING == STRING" ≠ Obj.boolV true := by
  refine ⟨by rfl, by simp⟩

/-- C2 as amended: for every two string objects, the evaluator's infix
dispatch sends `==` and `!=` into the string helper, which yields the
unsupported-operator error; string comparison is an error, not value
equality (`+`, by contrast, concatenates). -/
theorem string_equality_semantics (i j : Nat) (s1 s2 : String) (st : EvalSt) :
    evalInfixExpression "==" (.strV i s1) (.strV j s2) st =
      some (st, .errV "unsupported operator: STRING == STRING") ∧
    evalInfixExpression "!=" (.strV i s1) (.strV j s2) st =
      some (st, .errV "unsupported operator: STRING != STRING") := by
  exact ⟨rfl, rfl⟩

/-- C7 counterexample: the tree walker's `len` builtin rejects an integer
with the message `argument to `len` not supported. got=INTEGER` — a period
and `got=` — which is not the claimed `argument to `len` not supported, got
INTEGER` (only the object-package builtin used by the VM produces that
text). -/
theorem len_message_differs_counterexample :
    evalBuiltinFn "len" [.intV 1] initialEvalSt =
      some (initialEvalSt, .errV "argument to `len` not supported. got=INTEGER") ∧
    "argument to `len` not supported. got=INTEGER" ≠
      "argument to `len` not supported, got INTEGER" := by
  exact ⟨rfl, by decide⟩

/-- C7 as amended: `len("")` is `0` and `len([1,2,3])` is `3` under both
builtin sets, and `len(1)` is an in-band ERROR under both, but the texts
differ: the object-package (VM) builtin says
`argument to `len` not supported, got INTEGER` while the evaluator's says
`argument to `len` not supported. got=INTEGER`; the tree-walking evaluation
of the three programs agrees. -/
theorem len_builtin_semantics :
    evalBuiltinFn "len" [.strV 0 ""] lenSt = some (lenSt, .intV 0) ∧
    evalBuiltinFn "len" [.arrV 0] lenSt = some (lenSt, .intV 3) ∧
    evalBuiltinFn "len" [.intV 1] lenSt =
      some (lenSt, .errV "argument to `len` not supported. got=INTEGER") ∧
    objectBuiltinFn "len" [.strV 0 ""] lenSt = some (lenSt, .intV 0) ∧
    objectBuiltinFn "len" [.arrV 0] lenSt = some (lenSt, .intV 3) ∧
    objectBuiltinFn "len" [.intV 1] lenSt =
      some (lenSt, .errV "argument to `len` not supported, got INTEGER") ∧
    runEvalResult 99 [.exprStmt (.callExpr (.identifier "len")
      [.stringLiteral ""])] = some (.intV 0) ∧
    runEvalResult 99 [.exprStmt (.callExpr (.identifier "len")
      [.arrayLiteral [.integerLiteral 1, .integerLiteral 2, .integerLiteral 3]])] =
      some (.intV 3) ∧
    runEvalResult 99 [.exprStmt (.callExpr (.identifier "len")
      [.integerLiteral 1])] =
      some (.errV "argument to `len` not supported. got=INTEGER") := by
  refine ⟨rfl, rfl, rfl, rfl, rfl, rfl, by rfl, by rfl, by rfl⟩

/-- C3 counterexample: the seed program `let a = [1, 2, 3]; push(a, 4);
len(a)` evaluates to the integer `4`, not the claimed `3` — the evaluator's
`push` appends to the argument array in place. -/
theorem push_mutates_counterexample :
    runEvalResult 99 pushSeedProg = some (.intV 4) ∧
    Obj.intV 4 ≠ Obj.intV 3 := by
  refine ⟨by rfl, by simp⟩

/-- C3 as amended: the object-package `push` (the VM-side builtin set)
returns a freshly allocated array holding the argument's elements followed by
the value and leaves the argument array's cells unchanged, but the
evaluator's `push` overwrites the argument array in place and returns that
same array. -/
theorem push_semantics (st : EvalSt) (ref : Nat) (elems : List Obj) (v : Obj)
    (h : st.arrays.get? ref = some elems) :
    (objectBuiltinFn "push" [.arrV ref, v] st =
       some ({ st with arrays := st.arrays ++ [elems ++ [v]] },
             .arrV st.arrays.length) ∧
     ({ st with arrays := st.arrays ++ [elems ++ [v]] } : EvalSt).arrays.get? ref =
       some elems) ∧
    evalBuiltinFn "push" [.arrV ref, v] st =
      some ({ st with arrays := listSet st.arrays ref (elems ++ [v]) }, .arrV ref) := by
  have hlt : ref < st.arrays.length := by
    rcases List.get?_eq_some.mp h with ⟨hl, _⟩
    exact hl
  have h' : st.arrays[ref]? = some elems := by
    rw [← List.get?_eq_getElem?]
    exact h
  refine ⟨⟨?_, ?_⟩, ?_⟩
  · simp [objectBuiltinFn, h', allocArray]
  · rw [List.get?_eq_getElem?, List.getElem?_append_left hlt, ← List.get?_eq_getElem?]
    exact h
  · simp [evalBuiltinFn, h']

/-- Witness for C3 as amended on a one-element array heap. -/
theorem push_semantics_witness :
    (objectBuiltinFn "push" [.arrV 0, .intV 9] pushSt =
       some ({ pushSt with arrays := pushSt.arrays ++ [[.intV 1] ++ [.intV 9]] },
             .arrV pushSt.arrays.length) ∧
     ({ pushSt with arrays := pushSt.arrays ++ [[.intV 1] ++ [.intV 9]] } :
        EvalSt).arrays.get? 0 = some [.intV 1]) ∧
    evalBuiltinFn "push" [.arrV 0, .intV 9] pushSt =
      some ({ pushSt with arrays := listSet pushSt.arrays 0 ([.intV 1] ++ [.intV 9]) },
            .arrV 0) :=
  push_semantics pushSt 0 [.intV 1] (.intV 9) rfl

/-- C4: compiling `fn(a) { fn(b) { a + b } }` at the failing input.  The
inner function's bytecode is `[OpGetLocal 0, OpAdd, OpReturnValue]`
(bytes `[22, 0, 1, 27]`): the reference to the captured `a` resolves to a
`FREE` symbol, for which `loadSymbol` emits nothing — no `OpGetFree`
(byte 24) appears anywhere — and both emitted `OpClosure` instructions carry
a free-count operand of `0` (`Make OpClosure [1, 0] = [25, 0, 1, 0]` is the
main-scope instruction), contradicting the claimed `free-count ≥ i+1`. -/
theorem closure_capture_missing :
    (compileProgram 99 closureProg).map bytecodeOf =
      .ok ([25, 0, 1, 0, 2],
           [.compiledFnV [22, 0, 1, 27] 1 1,
            .compiledFnV [25, 0, 0, 0, 27] 1 1]) ∧
    Make .opClosure [1, 0] = some [25, 0, 1, 0] ∧
    Make .opGetLocal [0] = some [22, 0] ∧
    opcodeByte .opGetFree = 24 ∧
    (24 : Nat) ∉ ([22, 0, 1, 27] : List Nat) := by
  refine ⟨by rfl, by rfl, by rfl, rfl, by decide⟩

/-- C1: the two backends diverge at the failing input `"a" == "a"`.  The
tree walker returns the in-band ERROR `unsupported operator: STRING ==
STRING`; the compiled program runs on the VM without error and leaves the
shared `False` as the observable result (the two string constants are
distinct allocations compared by identity).  Moreover the VM cannot run any
program containing a function call: on `fn() { 1 }()` it stops with `unknown
opcode: 25` (`OpClosure`), where the tree walker produces the integer `1`. -/
theorem backend_divergence :
    runEvalResult 99 strEqProg =
      some (.errV "unsupported operator: STRING == STRING") ∧
    vmFinal 99 strEqProg = some (.boolV false) ∧
    Obj.errV "unsupported operator: STRING == STRING" ≠ Obj.boolV false ∧
    runEvalResult 99 callProg = some (.intV 1) ∧
    vmRunOutcome 99 callProg = some (.error "unknown opcode: 25") := by
  refine ⟨by rfl, by rfl, by simp, by rfl, by rfl⟩

end Monkey
